import Mathlib

/-!
Shallow embedding of the PISM geometry-update core (src/base/iMgeometry.cc):
IceModel::computeDrivingStress, IceModel::updateSurfaceElevationAndMask and
IceModel::massContExplicitStep, together with the theorems checking the
specified properties of these routines.  PetscScalar (double) arithmetic is
embedded as real arithmetic; fields are total functions on grid indices and
the owned sub-rectangle is an explicit list of cells in loop order.
-/

namespace Pism

/-- Modelled from the spec: the categorical per-cell mask state
(SHEET, DRAGGING_SHEET, FLOATING, OCEAN_AT_TIME_0, and the transient
UNKNOWN); the defining header (iceModel.hh) is not part of the sample. -/
inductive PismMask where
  | sheet
  | draggingSheet
  | floating
  | oceanAtTime0
  | unknown
deriving DecidableEq

/-- Modelled from the spec: the numeric codes of the mask values, with the
SHEET < DRAGGING_SHEET < FLOATING ordering that the neighbor vote sums;
OCEAN_AT_TIME_0 and the transient UNKNOWN carry distinct codes outside that
range (the defining header is not part of the sample). -/
def maskCode : PismMask → ℝ
  | .sheet => 1
  | .draggingSheet => 2
  | .floating => 3
  | .oceanAtTime0 => 7
  | .unknown => -1

/-- Modelled from the spec: the code a neighbor contributes to the vote;
the permanent-ocean value is folded onto the FLOATING code, so the vote only
ever sees the SHEET < DRAGGING_SHEET < FLOATING ordering. -/
def PismModMask (m : PismMask) : ℝ :=
  if m = .oceanAtTime0 then maskCode .floating else maskCode m

/-- Modelled from the spec: a cell counts as floating when its mask is
FLOATING or the permanent-ocean designation (IceModelVec2Mask accessor, not
in the sample). -/
def PismMask.is_floating : PismMask → Bool
  | .floating => true
  | .oceanAtTime0 => true
  | _ => false

/-- Modelled from the spec: a cell counts as grounded when its mask is one
of the two grounded regimes (IceModelVec2Mask accessor, not in the sample). -/
def PismMask.is_grounded : PismMask → Bool
  | .sheet => true
  | .draggingSheet => true
  | _ => false

/-- Run-time configuration flags read by the geometry core
(config.get_flag and the PETSc truth members of IceModel). -/
structure Config where
  is_dry_simulation : Bool
  do_plastic_till : Bool
  use_ssa_velocity : Bool
  ocean_kill : Bool
  floating_ice_killed : Bool
  include_bmr_in_continuity : Bool
  do_superpose : Bool
  computeSIAVelocities : Bool
  transformForSurfaceGradient : Bool
  compute_surf_grad_inward_ssa : Bool

/-- Scalar parameters of the geometry core: grid spacing, time step, the
seconds-per-year conversion, the current sea level, densities, gravity and
the flow-law exponent. -/
structure Params where
  dx : ℝ
  dy : ℝ
  dt : ℝ
  secpera : ℝ
  currentSeaLevel : ℝ
  ice_rho : ℝ
  ocean_rho : ℝ
  standard_gravity : ℝ
  ice_exponent : ℝ

/-- The grid state mutated by the geometry core: surface elevation vh, ice
thickness vH, bed elevation vbed and the mask vMask, indexed by (i, j). -/
structure GeomState where
  vh : ℤ → ℤ → ℝ
  vH : ℤ → ℤ → ℝ
  vbed : ℤ → ℤ → ℝ
  vMask : ℤ → ℤ → PismMask

/-- Pointwise write of one cell of a 2D field. -/
def upd2 {α : Type} (f : ℤ → ℤ → α) (i j : ℤ) (v : α) : ℤ → ℤ → α :=
  fun a b => if a = i ∧ b = j then v else f a b

/-- hgrounded = bed(i,j) + H(i,j), as computed per cell by
IceModel::updateSurfaceElevationAndMask. -/
noncomputable def hgrounded (st : GeomState) (i j : ℤ) : ℝ :=
  st.vbed i j + st.vH i j

/-- hfloating = currentSeaLevel + (1 - rho_ice/rho_ocean) * H(i,j), as
computed per cell by IceModel::updateSurfaceElevationAndMask. -/
noncomputable def hfloating (p : Params) (st : GeomState) (i j : ℤ) : ℝ :=
  p.currentSeaLevel + (1 - p.ice_rho / p.ocean_rho) * st.vH i j

/-- The floating/grounded reclassification of one non-dry, non-ocean cell
in IceModel::updateSurfaceElevationAndMask: a floating cell grounds when
hgrounded > hfloating + 1 (mask DRAGGING_SHEET, UNKNOWN or SHEET depending
on use_ssa_velocity and do_plastic_till), a grounded cell stays grounded
when hgrounded > hfloating - 1 (the submask upgraded to DRAGGING_SHEET when
both flags are set), and otherwise the cell gets h = hfloating with mask
FLOATING. -/
noncomputable def flotationBranch (cfg : Config) (p : Params) (st : GeomState)
    (i j : ℤ) : GeomState :=
  if (st.vMask i j).is_floating then
    if hgrounded st i j > hfloating p st i j + 1 then
      { st with vh := upd2 st.vh i j (hgrounded st i j),
                vMask := upd2 st.vMask i j
                  (if cfg.use_ssa_velocity then
                    (if cfg.do_plastic_till then .draggingSheet else .unknown)
                   else .sheet) }
    else
      { st with vh := upd2 st.vh i j (hfloating p st i j) }
  else
    if hgrounded st i j > hfloating p st i j - 1 then
      if cfg.use_ssa_velocity ∧ cfg.do_plastic_till then
        { st with vh := upd2 st.vh i j (hgrounded st i j),
                  vMask := upd2 st.vMask i j .draggingSheet }
      else
        { st with vh := upd2 st.vh i j (hgrounded st i j) }
    else
      { st with vh := upd2 st.vh i j (hfloating p st i j),
                vMask := upd2 st.vMask i j .floating }

/-- The sum of the vote codes of the eight BOX-stencil neighbors of (i,j)
in IceModel::updateSurfaceElevationAndMask. -/
noncomputable def neighmasksum (mask : ℤ → ℤ → PismMask) (i j : ℤ) : ℝ :=
  PismModMask (mask (i-1) (j+1)) + PismModMask (mask i (j+1)) +
    PismModMask (mask (i+1) (j+1)) +
  PismModMask (mask (i-1) j) + PismModMask (mask (i+1) j) +
  PismModMask (mask (i-1) (j-1)) + PismModMask (mask i (j-1)) +
    PismModMask (mask (i+1) (j-1))

/-- The vote-by-neighbors resolution of a transient UNKNOWN mask in
IceModel::updateSurfaceElevationAndMask: SHEET when the neighbor code sum is
at most 7 * MASK_SHEET + MASK_DRAGGING_SHEET + 0.1, DRAGGING_SHEET
otherwise; cells not marked UNKNOWN are left alone. -/
noncomputable def voteResolve (st1 : GeomState) (i j : ℤ) : GeomState :=
  if st1.vMask i j = .unknown then
    if neighmasksum st1.vMask i j ≤
        7 * maskCode .sheet + maskCode .draggingSheet + 0.1 then
      { st1 with vMask := upd2 st1.vMask i j .sheet }
    else
      { st1 with vMask := upd2 st1.vMask i j .draggingSheet }
  else st1

/-- The body of the (i, j) loop of IceModel::updateSurfaceElevationAndMask:
aborts with the offending indices when vH(i,j) < 0 (SETERRQ2), then writes
the surface elevation and the mask in place following the dry-simulation,
ocean-at-time-0 and flotation branches, resolving a transient UNKNOWN mask
by the vote over the BOX stencil. -/
noncomputable def updateCell (cfg : Config) (p : Params) (st : GeomState)
    (i j : ℤ) : Except (ℤ × ℤ) GeomState :=
  if st.vH i j < 0 then .error (i, j)
  else if cfg.is_dry_simulation then
    .ok { st with vh := upd2 st.vh i j (hgrounded st i j) }
  else if st.vMask i j = .oceanAtTime0 then
    .ok { st with vh := upd2 st.vh i j (hfloating p st i j) }
  else
    .ok (voteResolve (flotationBranch cfg p st i j) i j)

/-- The double loop of IceModel::updateSurfaceElevationAndMask over a list
of owned cells in loop order; a negative thickness aborts the whole call. -/
noncomputable def runCells (cfg : Config) (p : Params) :
    List (ℤ × ℤ) → GeomState → Except (ℤ × ℤ) GeomState
  | [], st => .ok st
  | c :: rest, st =>
    match updateCell cfg p st c.1 c.2 with
    | .error e => .error e
    | .ok st' => runCells cfg p rest st'

/-- The owned index rectangle [xs, xs+xm) x [ys, ys+ym) in loop order. -/
def ownedCells (xs xm ys ym : ℤ) : List (ℤ × ℤ) :=
  (List.range xm.toNat).flatMap (fun a =>
    (List.range ym.toNat).map (fun b => (xs + (a : ℤ), ys + (b : ℤ))))

/-- IceModel::updateSurfaceElevationAndMask over the owned rectangle. -/
noncomputable def updateSurfaceElevationAndMask (cfg : Config) (p : Params)
    (xs xm ys ym : ℤ) (st : GeomState) : Except (ℤ × ℤ) GeomState :=
  runCells cfg p (ownedCells xs xm ys ym) st

/-- External per-step inputs of IceModel::massContExplicitStep: the staggered
SIA flux components uvbar, the basal sliding velocities ub and vb, the SSA
velocities, the surface mass balance acab, the shelf base mass flux and the
grounded basal melt rate. -/
structure VelInputs where
  uvbar0 : ℤ → ℤ → ℝ
  uvbar1 : ℤ → ℤ → ℝ
  ub : ℤ → ℤ → ℝ
  vb : ℤ → ℤ → ℝ
  ubarssa : ℤ → ℤ → ℝ
  vbarssa : ℤ → ℤ → ℝ
  acab : ℤ → ℤ → ℝ
  shelfbmassflux : ℤ → ℤ → ℝ
  bmr_gnded : ℤ → ℤ → ℝ

/-- The superposition blend factor of massContExplicitStep,
f(v) = 1 - outC_fofv * atan(inC_fofv * (u^2 + v^2)) with
inC_fofv = 1.0e-4 * secpera^2 and outC_fofv = 2/pi. -/
noncomputable def fofv (secpera u v : ℝ) : ℝ :=
  1 - (2 / Real.pi) * Real.arctan ((1e-4 * secpera ^ 2) * (u ^ 2 + v ^ 2))

/-- Staggered-grid face thicknesses (He, Hw, Hn, Hs) of
massContExplicitStep: velocity-blended averages in the do_superpose
dragging-sheet case, plain arithmetic means otherwise. -/
noncomputable def faceThicknesses (cfg : Config) (p : Params) (inp : VelInputs)
    (H : ℤ → ℤ → ℝ) (mask : ℤ → ℤ → PismMask) (i j : ℤ) : ℝ × ℝ × ℝ × ℝ :=
  if cfg.do_superpose ∧ mask i j = .draggingSheet then
    let fv := fofv p.secpera (inp.ubarssa i j) (inp.vbarssa i j)
    let fve := fofv p.secpera (inp.ubarssa (i+1) j) (inp.vbarssa (i+1) j)
    let fvw := fofv p.secpera (inp.ubarssa (i-1) j) (inp.vbarssa (i-1) j)
    let fvn := fofv p.secpera (inp.ubarssa i (j+1)) (inp.vbarssa i (j+1))
    let fvs := fofv p.secpera (inp.ubarssa i (j-1)) (inp.vbarssa i (j-1))
    let fvH := fv * H i j
    (0.5 * (fvH + fve * H (i+1) j),
     0.5 * (fvw * H (i-1) j + fvH),
     0.5 * (fvH + fvn * H i (j+1)),
     0.5 * (fvs * H i (j-1) + fvH))
  else
    (0.5 * (H i j + H (i+1) j),
     0.5 * (H (i-1) j + H i j),
     0.5 * (H i j + H i (j+1)),
     0.5 * (H i (j-1) + H i j))

/-- SIA (non-sliding) part of Div Q in massContExplicitStep: centered
differences of the staggered flux uvbar weighted by the face thicknesses;
zero when SIA velocities are not computed. -/
noncomputable def siaDivQ (cfg : Config) (p : Params) (inp : VelInputs)
    (H : ℤ → ℤ → ℝ) (mask : ℤ → ℤ → PismMask) (i j : ℤ) : ℝ :=
  if cfg.computeSIAVelocities then
    let f := faceThicknesses cfg p inp H mask i j
    (inp.uvbar0 i j * f.1 - inp.uvbar0 (i-1) j * f.2.1) / p.dx
      + (inp.uvbar1 i j * f.2.2.1 - inp.uvbar1 i (j-1) * f.2.2.2) / p.dy
  else 0

/-- Basal sliding part of Div Q in massContExplicitStep: the product-rule
split into an upwinded advective term and a centered dilation term. -/
noncomputable def slidingDivQ (p : Params) (inp : VelInputs)
    (H : ℤ → ℤ → ℝ) (i j : ℤ) : ℝ :=
  inp.ub i j * (if inp.ub i j < 0 then H (i+1) j - H i j
                else H i j - H (i-1) j) / p.dx
    + inp.vb i j * (if inp.vb i j < 0 then H i (j+1) - H i j
                    else H i j - H i (j-1)) / p.dy
    + H i j * ((inp.ub (i+1) j - inp.ub (i-1) j) / (2 * p.dx)
        + (inp.vb i (j+1) - inp.vb i (j-1)) / (2 * p.dy))

/-- The new thickness vHnew(i,j) produced by one cell of the loop of
IceModel::massContExplicitStep: old thickness plus dt * (acab - Div Q),
minus the basal mass exchange when include_bmr_in_continuity is set, the
negative results clamped to zero, then the ocean-kill and float-kill
truncations. -/
noncomputable def massContNewH (cfg : Config) (p : Params) (inp : VelInputs)
    (H : ℤ → ℤ → ℝ) (mask : ℤ → ℤ → PismMask) (i j : ℤ) : ℝ :=
  let divQ := siaDivQ cfg p inp H mask i j + slidingDivQ p inp H i j
  let h1 := H i j + (inp.acab i j - divQ) * p.dt
  let h2 := if cfg.include_bmr_in_continuity then
      (if (mask i j).is_floating then h1 - inp.shelfbmassflux i j * p.dt
       else h1 - inp.bmr_gnded i j * p.dt)
    else h1
  let h3 := if h2 < 0 then 0 else h2
  let h4 := if cfg.ocean_kill ∧ mask i j = .oceanAtTime0 then 0 else h3
  if cfg.floating_ice_killed ∧ (mask i j).is_floating then 0 else h4

/-- IceModel::massContExplicitStep as a state transformer: vHnew is computed
at every owned cell from the old thickness (double buffered through
vWork2d[0]) and then copied back into vH; the mask, the bed and the surface
elevation are not written (the diagnostic outputs vdHdt, dvoldt and the
ice-cell count reductions are omitted). -/
noncomputable def massContExplicitStep (cfg : Config) (p : Params)
    (inp : VelInputs) (cells : List (ℤ × ℤ)) (st : GeomState) : GeomState :=
  { st with vH := fun a b =>
      if (a, b) ∈ cells then massContNewH cfg p inp st.vH st.vMask a b
      else st.vH a b }

/-- One call of the geometry core with its own configuration, parameters,
inputs and owned-cell list. -/
inductive CoreCall where
  | geom (cfg : Config) (p : Params) (cells : List (ℤ × ℤ))
  | massCont (cfg : Config) (p : Params) (inp : VelInputs)
      (cells : List (ℤ × ℤ))

/-- Run a sequence of core calls, propagating error aborts. -/
noncomputable def runCalls : List CoreCall → GeomState → Except (ℤ × ℤ) GeomState
  | [], st => .ok st
  | .geom cfg p cells :: rest, st =>
    match runCells cfg p cells st with
    | .error e => .error e
    | .ok st' => runCalls rest st'
  | .massCont cfg p inp cells :: rest, st =>
    runCalls rest (massContExplicitStep cfg p inp cells st)

/-- Modelled from the spec: centered finite difference in x of a field
(IceModelVec2S::diff_x, declared but not defined in the sample). -/
noncomputable def diff_x (dx : ℝ) (f : ℤ → ℤ → ℝ) (i j : ℤ) : ℝ :=
  (f (i+1) j - f (i-1) j) / (2 * dx)

/-- Modelled from the spec: centered finite difference in y of a field
(IceModelVec2S::diff_y, declared but not defined in the sample). -/
noncomputable def diff_y (dy : ℝ) (f : ℤ → ℤ → ℝ) (i j : ℤ) : ℝ :=
  (f i (j+1) - f i (j-1)) / (2 * dy)

/-- Modelled from the spec: one-sided inward difference in x used under
compute_surf_grad_inward_ssa (IceModelVec2S::diff_x_p, declared but not
defined in the sample). -/
noncomputable def diff_x_p (dx : ℝ) (f : ℤ → ℤ → ℝ) (i j : ℤ) : ℝ :=
  (f (i+1) j - f i j) / dx

/-- Modelled from the spec: one-sided inward difference in y used under
compute_surf_grad_inward_ssa (IceModelVec2S::diff_y_p, declared but not
defined in the sample). -/
noncomputable def diff_y_p (dy : ℝ) (f : ℤ → ℤ → ℝ) (i j : ℤ) : ℝ :=
  (f i (j+1) - f i j) / dy

/-- One cell of IceModel::computeDrivingStress: tau_d = - rho g H grad h,
with the eta = H^{(2n+2)/n} transformed surface gradient plus the bed
gradient on grounded cells when transformForSurfaceGradient is set, the
plain (or inward) surface difference otherwise, and exactly (0, 0) wherever
the pressure rho g H is non-positive. -/
noncomputable def computeDrivingStressAt (cfg : Config) (p : Params)
    (st : GeomState) (i j : ℤ) : ℝ × ℝ :=
  let n := p.ice_exponent
  let etapow := (2 * n + 2) / n
  let invpow := 1 / etapow
  let dinvpow := (-n - 2) / (2 * n + 2)
  let minThickEtaTransform : ℝ := 5
  let pressure := p.ice_rho * p.standard_gravity * st.vH i j
  if pressure ≤ 0 then (0, 0)
  else
    let g :=
      if (st.vMask i j).is_grounded ∧ cfg.transformForSurfaceGradient then
        let base :=
          if st.vH i j > 0 then
            let myH := if st.vH i j < minThickEtaTransform
              then minThickEtaTransform else st.vH i j
            let eta := Real.rpow myH etapow
            let factor := invpow * Real.rpow eta dinvpow
            (factor * (Real.rpow (st.vH (i+1) j) etapow
                - Real.rpow (st.vH (i-1) j) etapow) / (2 * p.dx),
             factor * (Real.rpow (st.vH i (j+1)) etapow
                - Real.rpow (st.vH i (j-1)) etapow) / (2 * p.dy))
          else ((0 : ℝ), (0 : ℝ))
        (base.1 + diff_x p.dx st.vbed i j, base.2 + diff_y p.dy st.vbed i j)
      else
        if cfg.compute_surf_grad_inward_ssa then
          (diff_x_p p.dx st.vh i j, diff_y_p p.dy st.vh i j)
        else
          (diff_x p.dx st.vh i j, diff_y p.dy st.vh i j)
    (-pressure * g.1, -pressure * g.2)

/-- The advective upwind term as the spec words it: the velocity times the
one-sided thickness difference against the upstream neighbor, the neighbor
the velocity sign points away from (the next cell when the velocity is
negative, the previous cell otherwise), divided by the grid spacing. -/
noncomputable def upwindAdvection (vel Hprev Hhere Hnext ds : ℝ) : ℝ :=
  if vel < 0 then vel * (Hnext - Hhere) / ds
  else vel * (Hhere - Hprev) / ds

/-- A configuration with every flag cleared, for concrete instances. -/
def cfgOff : Config :=
  ⟨false, false, false, false, false, false, false, false, false, false⟩

/-- cfgOff with is_dry_simulation set. -/
def cfgDry : Config := { cfgOff with is_dry_simulation := true }

/-- cfgOff with use_ssa_velocity set and do_plastic_till cleared. -/
def cfgSSA : Config := { cfgOff with use_ssa_velocity := true }

/-- Concrete parameters: unit spacing, step and secpera, sea level zero,
ice density 900, ocean density 1000, gravity 10, flow exponent 3. -/
noncomputable def pEx : Params := ⟨1, 1, 1, 1, 0, 900, 1000, 10, 3⟩

/-- Concrete state: no ice, deep bed (-1000), SHEET mask everywhere. -/
noncomputable def stDeep : GeomState :=
  ⟨fun _ _ => 0, fun _ _ => 0, fun _ _ => -1000, fun _ _ => .sheet⟩

/-- Concrete state: no ice, raised bed (5), permanent-ocean mask. -/
noncomputable def stHighOcean : GeomState :=
  ⟨fun _ _ => 0, fun _ _ => 0, fun _ _ => 5, fun _ _ => .oceanAtTime0⟩

/-- Concrete state: no ice, raised bed (10), FLOATING mask everywhere. -/
noncomputable def stFloatHighBed : GeomState :=
  ⟨fun _ _ => 0, fun _ _ => 0, fun _ _ => 10, fun _ _ => .floating⟩

/-- Concrete state: uniform thickness 2, flat bed 0, SHEET mask. -/
noncomputable def stFlat : GeomState :=
  ⟨fun _ _ => 2, fun _ _ => 2, fun _ _ => 0, fun _ _ => .sheet⟩

/-- Concrete state: thickness -1 everywhere (corrupt input), flat bed. -/
noncomputable def stNeg : GeomState :=
  ⟨fun _ _ => 0, fun _ _ => -1, fun _ _ => 0, fun _ _ => .sheet⟩

/-- Concrete velocity inputs: every field identically zero. -/
noncomputable def inpZero : VelInputs :=
  ⟨fun _ _ => 0, fun _ _ => 0, fun _ _ => 0, fun _ _ => 0, fun _ _ => 0,
   fun _ _ => 0, fun _ _ => 0, fun _ _ => 0, fun _ _ => 0⟩

/-- Concrete velocity inputs: zero velocities, surface mass balance 1. -/
noncomputable def inpAcabOne : VelInputs :=
  { inpZero with acab := fun _ _ => 1 }

theorem upd2_self {α : Type} (f : ℤ → ℤ → α) (i j : ℤ) (v : α) :
    upd2 f i j v i j = v := by
  simp [upd2]

theorem upd2_ne {α : Type} (f : ℤ → ℤ → α) (i j : ℤ) (v : α) {a b : ℤ}
    (h : ¬(a = i ∧ b = j)) : upd2 f i j v a b = f a b := by
  simp only [upd2, if_neg h]

theorem voteResolve_vh (st1 : GeomState) (i j : ℤ) :
    (voteResolve st1 i j).vh = st1.vh := by
  unfold voteResolve; split_ifs <;> rfl

theorem voteResolve_vH (st1 : GeomState) (i j : ℤ) :
    (voteResolve st1 i j).vH = st1.vH := by
  unfold voteResolve; split_ifs <;> rfl

theorem voteResolve_vbed (st1 : GeomState) (i j : ℤ) :
    (voteResolve st1 i j).vbed = st1.vbed := by
  unfold voteResolve; split_ifs <;> rfl

theorem voteResolve_mask_ne (st1 : GeomState) (i j : ℤ) {a b : ℤ}
    (h : ¬(a = i ∧ b = j)) :
    (voteResolve st1 i j).vMask a b = st1.vMask a b := by
  unfold voteResolve; split_ifs <;> simp [upd2_ne _ _ _ _ h]

theorem voteResolve_self_ne_unknown (st1 : GeomState) (i j : ℤ) :
    (voteResolve st1 i j).vMask i j ≠ PismMask.unknown := by
  unfold voteResolve
  split_ifs with h1 h2
  · simp [upd2_self]
  · simp [upd2_self]
  · exact h1

theorem voteResolve_self_ne_ocean (st1 : GeomState) (i j : ℤ)
    (h : st1.vMask i j ≠ PismMask.oceanAtTime0) :
    (voteResolve st1 i j).vMask i j ≠ PismMask.oceanAtTime0 := by
  unfold voteResolve
  split_ifs with h1 h2
  · simp [upd2_self]
  · simp [upd2_self]
  · exact h

theorem voteResolve_of_unknown (st1 : GeomState) (i j : ℤ)
    (h : st1.vMask i j = PismMask.unknown) :
    (voteResolve st1 i j).vMask i j =
      (if neighmasksum st1.vMask i j ≤
          7 * maskCode .sheet + maskCode .draggingSheet + 0.1
       then PismMask.sheet else PismMask.draggingSheet) := by
  unfold voteResolve
  rw [if_pos h]
  split_ifs <;> simp [upd2_self]

theorem voteResolve_of_ne (st1 : GeomState) (i j : ℤ)
    (h : st1.vMask i j ≠ PismMask.unknown) :
    voteResolve st1 i j = st1 := by
  unfold voteResolve; rw [if_neg h]

theorem flotationBranch_vH (cfg : Config) (p : Params) (st : GeomState)
    (i j : ℤ) : (flotationBranch cfg p st i j).vH = st.vH := by
  unfold flotationBranch; split_ifs <;> rfl

theorem flotationBranch_vbed (cfg : Config) (p : Params) (st : GeomState)
    (i j : ℤ) : (flotationBranch cfg p st i j).vbed = st.vbed := by
  unfold flotationBranch; split_ifs <;> rfl

theorem flotationBranch_vh_ne (cfg : Config) (p : Params) (st : GeomState)
    (i j : ℤ) {a b : ℤ} (h : ¬(a = i ∧ b = j)) :
    (flotationBranch cfg p st i j).vh a b = st.vh a b := by
  unfold flotationBranch; split_ifs <;> simp [upd2_ne _ _ _ _ h]

theorem flotationBranch_mask_ne (cfg : Config) (p : Params) (st : GeomState)
    (i j : ℤ) {a b : ℤ} (h : ¬(a = i ∧ b = j)) :
    (flotationBranch cfg p st i j).vMask a b = st.vMask a b := by
  unfold flotationBranch; split_ifs <;> simp [upd2_ne _ _ _ _ h]

theorem flotationBranch_mask_self_ne_ocean (cfg : Config) (p : Params)
    (st : GeomState) (i j : ℤ) (hm : st.vMask i j ≠ PismMask.oceanAtTime0) :
    (flotationBranch cfg p st i j).vMask i j ≠ PismMask.oceanAtTime0 := by
  unfold flotationBranch
  split_ifs <;> simp_all [upd2_self]

theorem flotationBranch_vh_bound (cfg : Config) (p : Params) (st : GeomState)
    (i j : ℤ) :
    (flotationBranch cfg p st i j).vh i j ≥
      max (hgrounded st i j) (hfloating p st i j) - 1 := by
  unfold flotationBranch
  split_ifs with h1 h2 h3 h4 <;>
    simp only [upd2_self] <;>
    rw [ge_iff_le, sub_le_iff_le_add, max_le_iff] <;>
    constructor <;> linarith

theorem updateCell_err (cfg : Config) (p : Params) (st : GeomState) (i j : ℤ)
    (hH : st.vH i j < 0) : updateCell cfg p st i j = .error (i, j) := by
  simp [updateCell, hH]

theorem updateCell_dry (cfg : Config) (p : Params) (st : GeomState) (i j : ℤ)
    (hH : ¬ st.vH i j < 0) (hdry : cfg.is_dry_simulation = true) :
    updateCell cfg p st i j =
      .ok { st with vh := upd2 st.vh i j (hgrounded st i j) } := by
  simp [updateCell, hH, hdry]

theorem updateCell_ocean (cfg : Config) (p : Params) (st : GeomState) (i j : ℤ)
    (hH : ¬ st.vH i j < 0) (hdry : cfg.is_dry_simulation = false)
    (hm : st.vMask i j = PismMask.oceanAtTime0) :
    updateCell cfg p st i j =
      .ok { st with vh := upd2 st.vh i j (hfloating p st i j) } := by
  simp [updateCell, hH, hdry, hm]

theorem updateCell_else (cfg : Config) (p : Params) (st : GeomState) (i j : ℤ)
    (hH : ¬ st.vH i j < 0) (hdry : cfg.is_dry_simulation = false)
    (hm : st.vMask i j ≠ PismMask.oceanAtTime0) :
    updateCell cfg p st i j =
      .ok (voteResolve (flotationBranch cfg p st i j) i j) := by
  simp [updateCell, hH, hdry, hm]

theorem updateCell_ok_exists (cfg : Config) (p : Params) (st : GeomState)
    (i j : ℤ) (hH : ¬ st.vH i j < 0) :
    ∃ st', updateCell cfg p st i j = .ok st' := by
  by_cases hdry : cfg.is_dry_simulation
  · exact ⟨_, updateCell_dry cfg p st i j hH hdry⟩
  · by_cases hm : st.vMask i j = PismMask.oceanAtTime0
    · exact ⟨_, updateCell_ocean cfg p st i j hH (by simpa using hdry) hm⟩
    · exact ⟨_, updateCell_else cfg p st i j hH (by simpa using hdry) hm⟩

theorem updateCell_ok_inv (cfg : Config) (p : Params) (st : GeomState)
    (i j : ℤ) (st' : GeomState) (h : updateCell cfg p st i j = .ok st') :
    st'.vH = st.vH ∧ st'.vbed = st.vbed ∧
    (∀ a b, ¬(a = i ∧ b = j) →
      st'.vh a b = st.vh a b ∧ st'.vMask a b = st.vMask a b) ∧
    (∀ a b, (st'.vMask a b = PismMask.oceanAtTime0 ↔
      st.vMask a b = PismMask.oceanAtTime0)) ∧
    (∀ a b, st.vMask a b ≠ PismMask.unknown →
      st'.vMask a b ≠ PismMask.unknown) := by
  by_cases hH : st.vH i j < 0
  · rw [updateCell_err cfg p st i j hH] at h; exact absurd h (by simp)
  by_cases hdry : cfg.is_dry_simulation
  · rw [updateCell_dry cfg p st i j hH hdry] at h
    injection h with h; subst h
    exact ⟨rfl, rfl, fun a b hab => ⟨upd2_ne _ _ _ _ hab, rfl⟩,
      fun a b => Iff.rfl, fun a b hu => hu⟩
  by_cases hm : st.vMask i j = PismMask.oceanAtTime0
  · rw [updateCell_ocean cfg p st i j hH (by simpa using hdry) hm] at h
    injection h with h; subst h
    exact ⟨rfl, rfl, fun a b hab => ⟨upd2_ne _ _ _ _ hab, rfl⟩,
      fun a b => Iff.rfl, fun a b hu => hu⟩
  · rw [updateCell_else cfg p st i j hH (by simpa using hdry) hm] at h
    injection h with h; subst h
    refine ⟨?_, ?_, ?_, ?_, ?_⟩
    · rw [voteResolve_vH, flotationBranch_vH]
    · rw [voteResolve_vbed, flotationBranch_vbed]
    · intro a b hab
      rw [voteResolve_vh, voteResolve_mask_ne _ _ _ hab,
          flotationBranch_vh_ne _ _ _ _ _ hab, flotationBranch_mask_ne _ _ _ _ _ hab]
      exact ⟨rfl, rfl⟩
    · intro a b
      by_cases hab : a = i ∧ b = j
      · obtain ⟨rfl, rfl⟩ := hab
        constructor
        · intro hcon
          exact absurd hcon (voteResolve_self_ne_ocean _ _ _
            (flotationBranch_mask_self_ne_ocean cfg p st a b hm))
        · intro hcon; exact absurd hcon hm
      · rw [voteResolve_mask_ne _ _ _ hab, flotationBranch_mask_ne _ _ _ _ _ hab]
    · intro a b _
      by_cases hab : a = i ∧ b = j
      · obtain ⟨rfl, rfl⟩ := hab
        exact voteResolve_self_ne_unknown _ _ _
      · rw [voteResolve_mask_ne _ _ _ hab, flotationBranch_mask_ne _ _ _ _ _ hab]
        intro hcon
        exact absurd hcon (by assumption)

theorem runCells_nil (cfg : Config) (p : Params) (st : GeomState) :
    runCells cfg p [] st = .ok st := rfl

theorem runCells_cons_ok (cfg : Config) (p : Params) (c : ℤ × ℤ)
    (rest : List (ℤ × ℤ)) (st st1 : GeomState)
    (h : updateCell cfg p st c.1 c.2 = .ok st1) :
    runCells cfg p (c :: rest) st = runCells cfg p rest st1 := by
  conv_lhs => rw [runCells]
  rw [h]

theorem runCells_cons_err (cfg : Config) (p : Params) (c : ℤ × ℤ)
    (rest : List (ℤ × ℤ)) (st : GeomState) (e : ℤ × ℤ)
    (h : updateCell cfg p st c.1 c.2 = .error e) :
    runCells cfg p (c :: rest) st = .error e := by
  unfold runCells; rw [h]

theorem runCells_ok_inv (cfg : Config) (p : Params) (cells : List (ℤ × ℤ)) :
    ∀ st st', runCells cfg p cells st = .ok st' →
    st'.vH = st.vH ∧ st'.vbed = st.vbed ∧
    (∀ a b, (a, b) ∉ cells →
      st'.vh a b = st.vh a b ∧ st'.vMask a b = st.vMask a b) ∧
    (∀ a b, (st'.vMask a b = PismMask.oceanAtTime0 ↔
      st.vMask a b = PismMask.oceanAtTime0)) ∧
    (∀ a b, st.vMask a b ≠ PismMask.unknown →
      st'.vMask a b ≠ PismMask.unknown) := by
  induction cells with
  | nil =>
    intro st st' h
    rw [runCells_nil] at h
    injection h with h; subst h
    exact ⟨rfl, rfl, fun a b _ => ⟨rfl, rfl⟩, fun a b => Iff.rfl, fun a b hu => hu⟩
  | cons c rest ih =>
    intro st st' h
    by_cases hH : st.vH c.1 c.2 < 0
    · rw [runCells_cons_err cfg p c rest st _ (updateCell_err cfg p st c.1 c.2 hH)] at h
      exact absurd h (by simp)
    · obtain ⟨st1, hok⟩ := updateCell_ok_exists cfg p st c.1 c.2 hH
      rw [runCells_cons_ok cfg p c rest st st1 hok] at h
      obtain ⟨e1, e2, e3, e4, e5⟩ := updateCell_ok_inv cfg p st c.1 c.2 st1 hok
      obtain ⟨f1, f2, f3, f4, f5⟩ := ih st1 st' h
      refine ⟨f1.trans e1, f2.trans e2, ?_, ?_, ?_⟩
      · intro a b hab
        have hab1 : (a, b) ∉ rest := fun hcon => hab (List.mem_cons_of_mem _ hcon)
        have hab2 : ¬(a = c.1 ∧ b = c.2) := by
          rintro ⟨rfl, rfl⟩
          exact hab (by simp [List.mem_cons])
        obtain ⟨g1, g2⟩ := f3 a b hab1
        obtain ⟨g3, g4⟩ := e3 a b hab2
        exact ⟨g1.trans g3, g2.trans g4⟩
      · intro a b; exact (f4 a b).trans (e4 a b)
      · intro a b hu; exact f5 a b (e5 a b hu)

theorem runCells_ok_of_nonneg (cfg : Config) (p : Params)
    (cells : List (ℤ × ℤ)) :
    ∀ st, (∀ c ∈ cells, 0 ≤ st.vH c.1 c.2) →
    ∃ st', runCells cfg p cells st = .ok st' := by
  induction cells with
  | nil => intro st _; exact ⟨st, rfl⟩
  | cons c rest ih =>
    intro st hpos
    have hH : ¬ st.vH c.1 c.2 < 0 :=
      not_lt.mpr (hpos c (by simp [List.mem_cons]))
    obtain ⟨st1, hok⟩ := updateCell_ok_exists cfg p st c.1 c.2 hH
    have hHeq := (updateCell_ok_inv cfg p st c.1 c.2 st1 hok).1
    obtain ⟨st', hrun⟩ := ih st1 (fun d hd => by
      rw [hHeq]; exact hpos d (List.mem_cons_of_mem _ hd))
    exact ⟨st', by rw [runCells_cons_ok cfg p c rest st st1 hok]; exact hrun⟩

theorem runCells_error_of_neg (cfg : Config) (p : Params)
    (cells : List (ℤ × ℤ)) :
    ∀ st, (∃ c ∈ cells, st.vH c.1 c.2 < 0) →
    ∃ i j, runCells cfg p cells st = .error (i, j) ∧ (i, j) ∈ cells ∧
      st.vH i j < 0 := by
  induction cells with
  | nil => intro st h; simp at h
  | cons c rest ih =>
    intro st hex
    by_cases hH : st.vH c.1 c.2 < 0
    · refine ⟨c.1, c.2, ?_, by simp [List.mem_cons], hH⟩
      exact runCells_cons_err cfg p c rest st _
        (updateCell_err cfg p st c.1 c.2 hH)
    · obtain ⟨st1, hok⟩ := updateCell_ok_exists cfg p st c.1 c.2 hH
      have hHeq := (updateCell_ok_inv cfg p st c.1 c.2 st1 hok).1
      obtain ⟨d, hd, hneg⟩ := hex
      have hd' : d ∈ rest := by
        rcases List.mem_cons.mp hd with hdc | hdr
        · exact absurd (hdc ▸ hneg) hH
        · exact hdr
      obtain ⟨a, b, h1, h2, h3⟩ := ih st1 ⟨d, hd', by rw [hHeq]; exact hneg⟩
      refine ⟨a, b, ?_, List.mem_cons_of_mem _ h2, ?_⟩
      · rw [runCells_cons_ok cfg p c rest st st1 hok]; exact h1
      · rw [← hHeq]; exact h3

theorem hgrounded_congr (st st1 : GeomState) (i j : ℤ)
    (h1 : st1.vH = st.vH) (h2 : st1.vbed = st.vbed) :
    hgrounded st1 i j = hgrounded st i j := by
  unfold hgrounded; rw [h1, h2]

theorem hfloating_congr (p : Params) (st st1 : GeomState) (i j : ℤ)
    (h1 : st1.vH = st.vH) :
    hfloating p st1 i j = hfloating p st i j := by
  unfold hfloating; rw [h1]

theorem runCells_h_bound (cfg : Config) (p : Params) (cells : List (ℤ × ℤ))
    (hdry : cfg.is_dry_simulation = false) :
    ∀ st st', runCells cfg p cells st = .ok st' →
    ∀ i j, (i, j) ∈ cells → st.vMask i j ≠ PismMask.oceanAtTime0 →
    st'.vh i j ≥ max (hgrounded st i j) (hfloating p st i j) - 1 := by
  induction cells with
  | nil => intro st st' _ i j hmem; simp at hmem
  | cons c rest ih =>
    intro st st' h i j hmem hm
    by_cases hH : st.vH c.1 c.2 < 0
    · rw [runCells_cons_err cfg p c rest st _ (updateCell_err cfg p st c.1 c.2 hH)] at h
      exact absurd h (by simp)
    obtain ⟨st1, hok⟩ := updateCell_ok_exists cfg p st c.1 c.2 hH
    rw [runCells_cons_ok cfg p c rest st st1 hok] at h
    obtain ⟨e1, e2, e3, e4, e5⟩ := updateCell_ok_inv cfg p st c.1 c.2 st1 hok
    have hg1 := hgrounded_congr st st1 i j e1 e2
    have hf1 := hfloating_congr p st st1 i j e1
    have hm1 : st1.vMask i j ≠ PismMask.oceanAtTime0 :=
      fun hcon => hm ((e4 i j).mp hcon)
    by_cases hrest : (i, j) ∈ rest
    · have := ih st1 st' h i j hrest hm1
      rw [hg1, hf1] at this
      exact this
    · have hc : (i, j) = c := by
        rcases List.mem_cons.mp hmem with hic | hir
        · exact hic
        · exact absurd hir hrest
      subst hc
      have hfr := (runCells_ok_inv cfg p rest st1 st' h).2.2.1 i j hrest
      rw [hfr.1]
      rw [updateCell_else cfg p st i j hH hdry hm] at hok
      injection hok with hok
      rw [← hok, voteResolve_vh]
      exact flotationBranch_vh_bound cfg p st i j

theorem runCells_ocean_h (cfg : Config) (p : Params) (cells : List (ℤ × ℤ))
    (hdry : cfg.is_dry_simulation = false) :
    ∀ st st', runCells cfg p cells st = .ok st' →
    ∀ i j, (i, j) ∈ cells → st.vMask i j = PismMask.oceanAtTime0 →
    st'.vh i j = hfloating p st i j := by
  induction cells with
  | nil => intro st st' _ i j hmem; simp at hmem
  | cons c rest ih =>
    intro st st' h i j hmem hm
    by_cases hH : st.vH c.1 c.2 < 0
    · rw [runCells_cons_err cfg p c rest st _ (updateCell_err cfg p st c.1 c.2 hH)] at h
      exact absurd h (by simp)
    obtain ⟨st1, hok⟩ := updateCell_ok_exists cfg p st c.1 c.2 hH
    rw [runCells_cons_ok cfg p c rest st st1 hok] at h
    obtain ⟨e1, e2, e3, e4, e5⟩ := updateCell_ok_inv cfg p st c.1 c.2 st1 hok
    have hf1 := hfloating_congr p st st1 i j e1
    have hm1 : st1.vMask i j = PismMask.oceanAtTime0 := (e4 i j).mpr hm
    by_cases hrest : (i, j) ∈ rest
    · have := ih st1 st' h i j hrest hm1
      rw [hf1] at this
      exact this
    · have hc : (i, j) = c := by
        rcases List.mem_cons.mp hmem with hic | hir
        · exact hic
        · exact absurd hir hrest
      subst hc
      have hfr := (runCells_ok_inv cfg p rest st1 st' h).2.2.1 i j hrest
      rw [hfr.1]
      rw [updateCell_ocean cfg p st i j hH hdry hm] at hok
      injection hok with hok
      rw [← hok]
      exact upd2_self st.vh i j _

theorem massCont_vMask (cfg : Config) (p : Params) (inp : VelInputs)
    (cells : List (ℤ × ℤ)) (st : GeomState) :
    (massContExplicitStep cfg p inp cells st).vMask = st.vMask := rfl

theorem runCalls_nil (st : GeomState) : runCalls [] st = .ok st := rfl

theorem runCalls_geom_ok (cfg : Config) (p : Params) (cells : List (ℤ × ℤ))
    (rest : List CoreCall) (st st1 : GeomState)
    (h : runCells cfg p cells st = .ok st1) :
    runCalls (.geom cfg p cells :: rest) st = runCalls rest st1 := by
  conv_lhs => rw [runCalls]
  rw [h]

theorem runCalls_geom_err (cfg : Config) (p : Params) (cells : List (ℤ × ℤ))
    (rest : List CoreCall) (st : GeomState) (e : ℤ × ℤ)
    (h : runCells cfg p cells st = .error e) :
    runCalls (.geom cfg p cells :: rest) st = .error e := by
  conv_lhs => rw [runCalls]
  rw [h]

theorem runCalls_massCont (cfg : Config) (p : Params) (inp : VelInputs)
    (cells : List (ℤ × ℤ)) (rest : List CoreCall) (st : GeomState) :
    runCalls (.massCont cfg p inp cells :: rest) st =
      runCalls rest (massContExplicitStep cfg p inp cells st) := rfl

theorem runCalls_ocean_mask (calls : List CoreCall) :
    ∀ st st', runCalls calls st = .ok st' →
    ∀ i j, st.vMask i j = PismMask.oceanAtTime0 →
    st'.vMask i j = PismMask.oceanAtTime0 := by
  induction calls with
  | nil =>
    intro st st' h i j hm
    rw [runCalls_nil] at h
    injection h with h; subst h
    exact hm
  | cons call rest ih =>
    intro st st' h i j hm
    cases call with
    | geom cfg p cells =>
      cases hrc : runCells cfg p cells st with
      | error e =>
        rw [runCalls_geom_err cfg p cells rest st e hrc] at h
        exact absurd h (by simp)
      | ok st1 =>
        rw [runCalls_geom_ok cfg p cells rest st st1 hrc] at h
        exact ih st1 st' h i j
          (((runCells_ok_inv cfg p cells st st1 hrc).2.2.2.1 i j).mpr hm)
    | massCont cfg p inp cells =>
      rw [runCalls_massCont cfg p inp cells rest st] at h
      exact ih _ st' h i j (by rw [massCont_vMask]; exact hm)

theorem ite_neg_zero_eq_max (x : ℝ) : (if x < 0 then (0:ℝ) else x) = max 0 x := by
  rcases lt_or_le x 0 with h | h
  · rw [if_pos h, max_eq_left h.le]
  · rw [if_neg (not_lt.mpr h), max_eq_right h]

theorem arctan_nonneg_of_nonneg {x : ℝ} (h : 0 ≤ x) : 0 ≤ Real.arctan x := by
  rw [← Real.arctan_zero]
  exact Real.arctan_strictMono.monotone h

theorem fofv_pos (secpera u v : ℝ) : 0 < fofv secpera u v := by
  unfold fofv
  have hπ := Real.pi_pos
  have h1 : Real.arctan ((1e-4 * secpera ^ 2) * (u ^ 2 + v ^ 2)) < Real.pi / 2 :=
    Real.arctan_lt_pi_div_two _
  have h2 : (2 / Real.pi) * Real.arctan ((1e-4 * secpera ^ 2) * (u ^ 2 + v ^ 2)) <
      (2 / Real.pi) * (Real.pi / 2) :=
    mul_lt_mul_of_pos_left h1 (by positivity)
  have h3 : (2 / Real.pi) * (Real.pi / 2) = 1 := by field_simp
  linarith

theorem fofv_le_one (secpera u v : ℝ) : fofv secpera u v ≤ 1 := by
  unfold fofv
  have harg : (0:ℝ) ≤ (1e-4 * secpera ^ 2) * (u ^ 2 + v ^ 2) := by positivity
  have h1 := arctan_nonneg_of_nonneg harg
  have h2 : 0 ≤ (2 / Real.pi) *
      Real.arctan ((1e-4 * secpera ^ 2) * (u ^ 2 + v ^ 2)) :=
    mul_nonneg (by positivity) h1
  linarith

theorem fofv_eq_one_iff (secpera u v : ℝ) (hs : secpera ≠ 0) :
    fofv secpera u v = 1 ↔ u = 0 ∧ v = 0 := by
  unfold fofv
  have hπ : (2 / Real.pi) ≠ 0 := div_ne_zero two_ne_zero Real.pi_ne_zero
  constructor
  · intro h
    have h1 : (2 / Real.pi) *
        Real.arctan ((1e-4 * secpera ^ 2) * (u ^ 2 + v ^ 2)) = 0 := by linarith
    have h2 : Real.arctan ((1e-4 * secpera ^ 2) * (u ^ 2 + v ^ 2)) = 0 := by
      rcases mul_eq_zero.mp h1 with h' | h'
      · exact absurd h' hπ
      · exact h'
    have h3 := Real.arctan_eq_zero_iff.mp h2
    have hc : (1e-4 * secpera ^ 2 : ℝ) ≠ 0 :=
      mul_ne_zero (by norm_num) (pow_ne_zero 2 hs)
    have h4 : u ^ 2 + v ^ 2 = 0 := by
      rcases mul_eq_zero.mp h3 with h' | h'
      · exact absurd h' hc
      · exact h'
    have hu : u ^ 2 = 0 := by nlinarith [sq_nonneg u, sq_nonneg v]
    have hv : v ^ 2 = 0 := by nlinarith [sq_nonneg u, sq_nonneg v]
    exact ⟨pow_eq_zero_iff two_ne_zero |>.mp hu,
      pow_eq_zero_iff two_ne_zero |>.mp hv⟩
  · rintro ⟨rfl, rfl⟩
    norm_num

theorem blend_bounds (f1 f2 H1 H2 : ℝ) (hf1 : 0 < f1) (hf1' : f1 ≤ 1)
    (hf2 : 0 < f2) (hf2' : f2 ≤ 1) (h1 : 0 ≤ H1) (h2 : 0 ≤ H2) :
    0 ≤ 0.5 * (f1 * H1 + f2 * H2) ∧
    0.5 * (f1 * H1 + f2 * H2) ≤ 0.5 * (H1 + H2) := by
  have a1 : 0 ≤ f1 * H1 := mul_nonneg hf1.le h1
  have a2 : 0 ≤ f2 * H2 := mul_nonneg hf2.le h2
  have b1 : f1 * H1 ≤ H1 := mul_le_of_le_one_left h1 hf1'
  have b2 : f2 * H2 ≤ H2 := mul_le_of_le_one_left h2 hf2'
  constructor <;> linarith

theorem massContNewH_nonneg (cfg : Config) (p : Params) (inp : VelInputs)
    (H : ℤ → ℤ → ℝ) (mask : ℤ → ℤ → PismMask) (i j : ℤ) :
    0 ≤ massContNewH cfg p inp H mask i j := by
  simp only [massContNewH]
  split_ifs <;> simp_all [not_lt]

/-- Claim C1: for every configuration and all inputs, the thickness written
by massContExplicitStep is non-negative at every owned cell: the clamp of
negative results to zero, followed by the ocean-kill and float-kill
truncations (which only set cells to exactly zero), never leaves a negative
value. -/
theorem claim1_massCont_nonneg (cfg : Config) (p : Params) (inp : VelInputs)
    (cells : List (ℤ × ℤ)) (st : GeomState) (a b : ℤ)
    (hmem : (a, b) ∈ cells) :
    0 ≤ (massContExplicitStep cfg p inp cells st).vH a b := by
  have h := massContNewH_nonneg cfg p inp st.vH st.vMask a b
  simpa [massContExplicitStep, hmem] using h

theorem claim1_witness :
    ((0:ℤ), (0:ℤ)) ∈ [((0:ℤ), (0:ℤ))] ∧
    0 ≤ (massContExplicitStep cfgOff pEx inpZero [(0, 0)] stFlat).vH 0 0 :=
  ⟨by simp, claim1_massCont_nonneg cfgOff pEx inpZero [(0, 0)] stFlat 0 0
    (by simp)⟩

/-- Claim C5: with zero sliding and SSA velocities, zero (or disabled)
staggered SIA fluxes, basal-melt inclusion, ocean-kill and float-kill all
disabled, and surface mass balance equal to a constant m,
massContExplicitStep produces H(i,j) + m*dt clamped at zero at every cell;
in particular with m = 0 and non-negative input it reproduces H. -/
theorem claim5_mass_balance_only (cfg : Config) (p : Params) (inp : VelInputs)
    (H : ℤ → ℤ → ℝ) (mask : ℤ → ℤ → PismMask) (i j : ℤ) (m : ℝ)
    (hub : ∀ a b, inp.ub a b = 0) (hvb : ∀ a b, inp.vb a b = 0)
    (_hsu : ∀ a b, inp.ubarssa a b = 0) (_hsv : ∀ a b, inp.vbarssa a b = 0)
    (hsia : (∀ a b, inp.uvbar0 a b = 0 ∧ inp.uvbar1 a b = 0) ∨
      cfg.computeSIAVelocities = false)
    (hbmr : cfg.include_bmr_in_continuity = false)
    (hkill : cfg.ocean_kill = false) (hfk : cfg.floating_ice_killed = false)
    (hacab : ∀ a b, inp.acab a b = m) :
    massContNewH cfg p inp H mask i j = max 0 (H i j + m * p.dt) ∧
    (m = 0 → 0 ≤ H i j → massContNewH cfg p inp H mask i j = H i j) := by
  have hsl : slidingDivQ p inp H i j = 0 := by
    simp [slidingDivQ, hub, hvb]
  have hsd : siaDivQ cfg p inp H mask i j = 0 := by
    rcases hsia with h | h
    · simp [siaDivQ, (h i j).1, (h (i-1) j).1, (h i j).2, (h i (j-1)).2]
    · simp [siaDivQ, h]
  have hmain : massContNewH cfg p inp H mask i j = max 0 (H i j + m * p.dt) := by
    simp only [massContNewH, hsl, hsd, hbmr, hkill, hfk, hacab, add_zero,
      sub_zero, Bool.false_eq_true, if_false, false_and]
    exact ite_neg_zero_eq_max _
  refine ⟨hmain, ?_⟩
  intro hm h0
  rw [hmain, hm, zero_mul, add_zero]
  exact max_eq_right h0

theorem claim5_witness :
    (∀ a b : ℤ, inpAcabOne.ub a b = 0) ∧
    massContNewH cfgOff pEx inpAcabOne stFlat.vH stFlat.vMask 0 0 =
      max 0 (stFlat.vH 0 0 + 1 * pEx.dt) :=
  ⟨fun _ _ => rfl,
   (claim5_mass_balance_only cfgOff pEx inpAcabOne stFlat.vH stFlat.vMask 0 0 1
     (fun _ _ => rfl) (fun _ _ => rfl) (fun _ _ => rfl) (fun _ _ => rfl)
     (Or.inl (fun _ _ => ⟨rfl, rfl⟩)) rfl rfl rfl (fun _ _ => rfl)).1⟩

/-- Claim C6: the sliding contribution to the flux divergence computed by
massContExplicitStep is the upwinded advective term (the thickness
difference taken against the upstream neighbor, the one the velocity sign
points away from) plus the centered dilation term, the local thickness times
the centered velocity divergence. -/
theorem claim6_sliding_upwind (p : Params) (inp : VelInputs)
    (H : ℤ → ℤ → ℝ) (i j : ℤ) :
    slidingDivQ p inp H i j =
      upwindAdvection (inp.ub i j) (H (i-1) j) (H i j) (H (i+1) j) p.dx
      + upwindAdvection (inp.vb i j) (H i (j-1)) (H i j) (H i (j+1)) p.dy
      + H i j * ((inp.ub (i+1) j - inp.ub (i-1) j) / (2 * p.dx)
          + (inp.vb i (j+1) - inp.vb i (j-1)) / (2 * p.dy)) := by
  unfold slidingDivQ upwindAdvection
  split_ifs <;> ring

/-- Claim C8: computeDrivingStress writes exactly (0, 0) into the
driving-stress components at every cell whose pressure rho*g*H is
non-positive, in particular at every cell with H(i,j) = 0. -/
theorem claim8_zero_pressure (cfg : Config) (p : Params) (st : GeomState)
    (i j : ℤ)
    (h : p.ice_rho * p.standard_gravity * st.vH i j ≤ 0 ∨ st.vH i j = 0) :
    computeDrivingStressAt cfg p st i j = (0, 0) := by
  have hp : p.ice_rho * p.standard_gravity * st.vH i j ≤ 0 := by
    rcases h with h | h
    · exact h
    · rw [h, mul_zero]
  simp [computeDrivingStressAt, hp]

theorem claim8_witness :
    (pEx.ice_rho * pEx.standard_gravity * stDeep.vH 0 0 ≤ 0 ∨
      stDeep.vH 0 0 = 0) ∧
    computeDrivingStressAt cfgOff pEx stDeep 0 0 = (0, 0) :=
  ⟨Or.inr rfl, claim8_zero_pressure cfgOff pEx stDeep 0 0 (Or.inr rfl)⟩

/-- Claim C10: the superposition blend factor f = 1 - (2/pi) atan(c |v|^2)
of massContExplicitStep satisfies 0 < f ≤ 1 with f = 1 exactly at zero
speed, and every blended staggered face thickness built from non-negative
cell thicknesses is non-negative and at most the plain arithmetic mean of
the two adjacent thicknesses. -/
theorem claim10_blend (cfg : Config) (p : Params) (inp : VelInputs)
    (H : ℤ → ℤ → ℝ) (mask : ℤ → ℤ → PismMask) (i j : ℤ) (u v : ℝ)
    (hs : p.secpera ≠ 0) (hH : ∀ a b, 0 ≤ H a b) :
    (0 < fofv p.secpera u v ∧ fofv p.secpera u v ≤ 1 ∧
      (fofv p.secpera u v = 1 ↔ u = 0 ∧ v = 0)) ∧
    (0 ≤ (faceThicknesses cfg p inp H mask i j).1 ∧
      (faceThicknesses cfg p inp H mask i j).1 ≤ 0.5 * (H i j + H (i+1) j)) ∧
    (0 ≤ (faceThicknesses cfg p inp H mask i j).2.1 ∧
      (faceThicknesses cfg p inp H mask i j).2.1 ≤ 0.5 * (H (i-1) j + H i j)) ∧
    (0 ≤ (faceThicknesses cfg p inp H mask i j).2.2.1 ∧
      (faceThicknesses cfg p inp H mask i j).2.2.1 ≤ 0.5 * (H i j + H i (j+1))) ∧
    (0 ≤ (faceThicknesses cfg p inp H mask i j).2.2.2 ∧
      (faceThicknesses cfg p inp H mask i j).2.2.2 ≤
        0.5 * (H i (j-1) + H i j)) := by
  refine ⟨⟨fofv_pos _ _ _, fofv_le_one _ _ _, fofv_eq_one_iff _ _ _ hs⟩, ?_⟩
  have hfv : ∀ a b : ℤ,
      0 < fofv p.secpera (inp.ubarssa a b) (inp.vbarssa a b) ∧
      fofv p.secpera (inp.ubarssa a b) (inp.vbarssa a b) ≤ 1 :=
    fun a b => ⟨fofv_pos _ _ _, fofv_le_one _ _ _⟩
  unfold faceThicknesses
  split_ifs with hc
  · dsimp only
    refine ⟨?_, ?_, ?_, ?_⟩
    · exact blend_bounds _ _ _ _ (hfv i j).1 (hfv i j).2
        (hfv (i+1) j).1 (hfv (i+1) j).2 (hH i j) (hH (i+1) j)
    · exact blend_bounds _ _ _ _ (hfv (i-1) j).1 (hfv (i-1) j).2
        (hfv i j).1 (hfv i j).2 (hH (i-1) j) (hH i j)
    · exact blend_bounds _ _ _ _ (hfv i j).1 (hfv i j).2
        (hfv i (j+1)).1 (hfv i (j+1)).2 (hH i j) (hH i (j+1))
    · exact blend_bounds _ _ _ _ (hfv i (j-1)).1 (hfv i (j-1)).2
        (hfv i j).1 (hfv i j).2 (hH i (j-1)) (hH i j)
  · dsimp only
    refine ⟨⟨?_, le_refl _⟩, ⟨?_, le_refl _⟩, ⟨?_, le_refl _⟩, ⟨?_, le_refl _⟩⟩ <;>
    · have h1 := hH i j
      have h2 := hH (i+1) j
      have h3 := hH (i-1) j
      have h4 := hH i (j+1)
      have h5 := hH i (j-1)
      linarith

theorem claim10_witness :
    pEx.secpera ≠ 0 ∧ 0 < fofv pEx.secpera 0 0 :=
  ⟨by norm_num [pEx],
   (claim10_blend cfgOff pEx inpZero stFlat.vH stFlat.vMask 0 0 0 0
     (by norm_num [pEx]) (fun _ _ => by norm_num [stFlat])).1.1⟩

/-- Claim C7: updateSurfaceElevationAndMask terminates with an unrecoverable
error naming the offending grid indices whenever some owned cell has a
negative input thickness, this failure path is unreachable whenever every
owned cell has non-negative thickness, and the thickness field is never
modified (no clamping or other recovery is performed). -/
theorem claim7_negative_thickness (cfg : Config) (p : Params)
    (cells : List (ℤ × ℤ)) (st : GeomState) :
    ((∀ c ∈ cells, 0 ≤ st.vH c.1 c.2) →
      ∃ st', runCells cfg p cells st = .ok st' ∧ st'.vH = st.vH) ∧
    ((∃ c ∈ cells, st.vH c.1 c.2 < 0) →
      ∃ i j, runCells cfg p cells st = .error (i, j) ∧ (i, j) ∈ cells ∧
        st.vH i j < 0) := by
  constructor
  · intro hpos
    obtain ⟨st', h⟩ := runCells_ok_of_nonneg cfg p cells st hpos
    exact ⟨st', h, (runCells_ok_inv cfg p cells st st' h).1⟩
  · exact runCells_error_of_neg cfg p cells st

theorem claim7_witness :
    (∀ c ∈ [((0:ℤ), (0:ℤ))], 0 ≤ stFlat.vH c.1 c.2) ∧
    (∃ st', runCells cfgOff pEx [(0, 0)] stFlat = .ok st' ∧
      st'.vH = stFlat.vH) ∧
    stNeg.vH 0 0 < 0 ∧
    (∃ i j, runCells cfgOff pEx [(0, 0)] stNeg = .error (i, j) ∧
      (i, j) ∈ [((0:ℤ), (0:ℤ))] ∧ stNeg.vH i j < 0) := by
  have hpos : ∀ c ∈ [((0:ℤ), (0:ℤ))], 0 ≤ stFlat.vH c.1 c.2 := by
    intro c _; norm_num [stFlat]
  have hneg : stNeg.vH 0 0 < 0 := by norm_num [stNeg]
  exact ⟨hpos, (claim7_negative_thickness cfgOff pEx [(0, 0)] stFlat).1 hpos,
    hneg, (claim7_negative_thickness cfgOff pEx [(0, 0)] stNeg).2
      ⟨(0, 0), by simp, hneg⟩⟩

/-- Claim C2 counterexample: in the dry-simulation configuration a cell with
a deep bed and zero thickness gets h = hgrounded = bed, which violates the
claimed bound h >= max(bed+H, sea_level+(1-rho_i/rho_o)H) - 1, even though
every input thickness is non-negative. -/
theorem claim2_counterexample :
    (∀ a b : ℤ, 0 ≤ stDeep.vH a b) ∧
    ∃ st', runCells cfgDry pEx [(0, 0)] stDeep = .ok st' ∧
      ¬ (st'.vh 0 0 ≥ max (stDeep.vbed 0 0 + stDeep.vH 0 0)
          (pEx.currentSeaLevel + (1 - pEx.ice_rho / pEx.ocean_rho) *
            stDeep.vH 0 0) - 1) := by
  have hH : ¬ stDeep.vH 0 0 < 0 := by norm_num [stDeep]
  refine ⟨fun a b => le_refl 0,
    { stDeep with vh := upd2 stDeep.vh 0 0 (hgrounded stDeep 0 0) },
    ?_, ?_⟩
  · rw [runCells_cons_ok cfgDry pEx (0, 0) [] stDeep _
      (updateCell_dry cfgDry pEx stDeep 0 0 hH rfl)]
    exact runCells_nil cfgDry pEx _
  · have hvh : ({ stDeep with
        vh := upd2 stDeep.vh 0 0 (hgrounded stDeep 0 0) } : GeomState).vh 0 0
        = -1000 := by
      show upd2 stDeep.vh 0 0 (hgrounded stDeep 0 0) 0 0 = -1000
      rw [upd2_self]
      norm_num [hgrounded, stDeep]
    rw [ge_iff_le, not_le, hvh]
    have hB : (0:ℝ) ≤ max (stDeep.vbed 0 0 + stDeep.vH 0 0)
        (pEx.currentSeaLevel + (1 - pEx.ice_rho / pEx.ocean_rho) *
          stDeep.vH 0 0) := by
      refine le_trans ?_ (le_max_right _ _)
      norm_num [stDeep, pEx]
    linarith

/-- Claim C2 (amended): after updateSurfaceElevationAndMask, every owned
cell that is processed by neither the dry-simulation branch nor the
OCEAN_AT_TIME_0 branch satisfies
h(i,j) >= max(bed+H, sea_level+(1-rho_ice/rho_ocean)H) - 1; the bound does
not extend to the dry-simulation configuration or to permanent-ocean cells,
where h is forced to hgrounded (resp. hfloating) unconditionally. -/
theorem claim2_h_lower_bound (cfg : Config) (p : Params)
    (cells : List (ℤ × ℤ)) (st st' : GeomState)
    (hdry : cfg.is_dry_simulation = false)
    (hrun : runCells cfg p cells st = .ok st') (i j : ℤ)
    (hmem : (i, j) ∈ cells) (hm : st.vMask i j ≠ PismMask.oceanAtTime0) :
    st'.vh i j ≥ max (st.vbed i j + st.vH i j)
      (p.currentSeaLevel + (1 - p.ice_rho / p.ocean_rho) * st.vH i j) - 1 := by
  have h := runCells_h_bound cfg p cells hdry st st' hrun i j hmem hm
  simpa [hgrounded, hfloating] using h

theorem claim2_witness :
    cfgOff.is_dry_simulation = false ∧
    ((0:ℤ), (0:ℤ)) ∈ [((0:ℤ), (0:ℤ))] ∧
    stDeep.vMask 0 0 ≠ PismMask.oceanAtTime0 ∧
    ({ stDeep with
        vh := upd2 stDeep.vh 0 0 (hfloating pEx stDeep 0 0),
        vMask := upd2 stDeep.vMask 0 0 PismMask.floating } : GeomState).vh 0 0 ≥
      max (stDeep.vbed 0 0 + stDeep.vH 0 0)
        (pEx.currentSeaLevel + (1 - pEx.ice_rho / pEx.ocean_rho) *
          stDeep.vH 0 0) - 1 := by
  have hH : ¬ stDeep.vH 0 0 < 0 := by norm_num [stDeep]
  have hm : stDeep.vMask 0 0 ≠ PismMask.oceanAtTime0 := by simp [stDeep]
  have hc1 : ¬ ((stDeep.vMask 0 0).is_floating = true) := by
    simp [stDeep, PismMask.is_floating]
  have hc2 : ¬ (hgrounded stDeep 0 0 > hfloating pEx stDeep 0 0 - 1) := by
    norm_num [hgrounded, hfloating, stDeep, pEx]
  have hfb : flotationBranch cfgOff pEx stDeep 0 0 =
      { stDeep with
        vh := upd2 stDeep.vh 0 0 (hfloating pEx stDeep 0 0),
        vMask := upd2 stDeep.vMask 0 0 PismMask.floating } := by
    unfold flotationBranch
    rw [if_neg hc1, if_neg hc2]
  have hupd : updateCell cfgOff pEx stDeep 0 0 =
      .ok { stDeep with
        vh := upd2 stDeep.vh 0 0 (hfloating pEx stDeep 0 0),
        vMask := upd2 stDeep.vMask 0 0 PismMask.floating } := by
    rw [updateCell_else cfgOff pEx stDeep 0 0 hH rfl hm, hfb,
      voteResolve_of_ne _ 0 0 (by simp [upd2_self])]
  have hrun : runCells cfgOff pEx [(0, 0)] stDeep =
      .ok { stDeep with
        vh := upd2 stDeep.vh 0 0 (hfloating pEx stDeep 0 0),
        vMask := upd2 stDeep.vMask 0 0 PismMask.floating } := by
    rw [runCells_cons_ok cfgOff pEx (0, 0) [] stDeep _ hupd]
    exact runCells_nil cfgOff pEx _
  exact ⟨rfl, by simp, hm,
    claim2_h_lower_bound cfgOff pEx [(0, 0)] stDeep _ rfl hrun 0 0
      (by simp) hm⟩

/-- Claim C3: in updateSurfaceElevationAndMask, for a cell in neither the
dry-simulation branch nor the OCEAN_AT_TIME_0 branch: a floating cell is
reclassified as grounded (h = hgrounded; DRAGGING_SHEET when SSA velocity
and plastic till are both active, SHEET when SSA is inactive) exactly when
hgrounded > hfloating + 1, and otherwise gets h = hfloating with mask
FLOATING; a grounded cell stays grounded (h = hgrounded, submask kept except
upgraded to DRAGGING_SHEET when SSA velocity and plastic till are both
active) exactly when hgrounded > hfloating - 1, and otherwise gets
h = hfloating with mask FLOATING. -/
theorem claim3_reclassification (cfg : Config) (p : Params) (st : GeomState)
    (i j : ℤ) (hdry : cfg.is_dry_simulation = false) (hH : ¬ st.vH i j < 0) :
    (st.vMask i j = PismMask.floating →
      ∃ st', updateCell cfg p st i j = .ok st' ∧
        ((hgrounded st i j > hfloating p st i j + 1 →
           st'.vh i j = hgrounded st i j ∧
           (cfg.use_ssa_velocity = true → cfg.do_plastic_till = true →
             st'.vMask i j = PismMask.draggingSheet) ∧
           (cfg.use_ssa_velocity = false → st'.vMask i j = PismMask.sheet)) ∧
         (¬ hgrounded st i j > hfloating p st i j + 1 →
           st'.vh i j = hfloating p st i j ∧
           st'.vMask i j = PismMask.floating)))
    ∧ ((st.vMask i j = PismMask.sheet ∨
        st.vMask i j = PismMask.draggingSheet) →
      ∃ st', updateCell cfg p st i j = .ok st' ∧
        ((hgrounded st i j > hfloating p st i j - 1 →
           st'.vh i j = hgrounded st i j ∧
           (cfg.use_ssa_velocity = true → cfg.do_plastic_till = true →
             st'.vMask i j = PismMask.draggingSheet) ∧
           (¬ (cfg.use_ssa_velocity = true ∧ cfg.do_plastic_till = true) →
             st'.vMask i j = st.vMask i j)) ∧
         (¬ hgrounded st i j > hfloating p st i j - 1 →
           st'.vh i j = hfloating p st i j ∧
           st'.vMask i j = PismMask.floating))) := by
  constructor
  · intro hm
    have hm0 : st.vMask i j ≠ PismMask.oceanAtTime0 := by rw [hm]; simp
    have hfl : (st.vMask i j).is_floating = true := by rw [hm]; rfl
    refine ⟨_, updateCell_else cfg p st i j hH hdry hm0, ?_, ?_⟩
    · intro hc
      have hfb : flotationBranch cfg p st i j =
          { st with
            vh := upd2 st.vh i j (hgrounded st i j),
            vMask := upd2 st.vMask i j
              (if cfg.use_ssa_velocity then
                (if cfg.do_plastic_till then PismMask.draggingSheet
                 else PismMask.unknown)
               else PismMask.sheet) } := by
        unfold flotationBranch
        rw [if_pos hfl, if_pos hc]
      refine ⟨?_, ?_, ?_⟩
      · rw [voteResolve_vh, hfb]
        exact upd2_self _ _ _ _
      · intro hssa htill
        have hV : (flotationBranch cfg p st i j).vMask i j =
            PismMask.draggingSheet := by
          rw [hfb]
          show upd2 st.vMask i j _ i j = _
          rw [upd2_self, if_pos hssa, if_pos htill]
        rw [voteResolve_of_ne _ i j (by rw [hV]; simp)]
        exact hV
      · intro hssa
        have hV : (flotationBranch cfg p st i j).vMask i j =
            PismMask.sheet := by
          rw [hfb]
          show upd2 st.vMask i j _ i j = _
          rw [upd2_self, if_neg (by simp [hssa])]
        rw [voteResolve_of_ne _ i j (by rw [hV]; simp)]
        exact hV
    · intro hc
      have hfb : flotationBranch cfg p st i j =
          { st with vh := upd2 st.vh i j (hfloating p st i j) } := by
        unfold flotationBranch
        rw [if_pos hfl, if_neg hc]
      have hV : (flotationBranch cfg p st i j).vMask i j =
          PismMask.floating := by
        rw [hfb]; exact hm
      rw [voteResolve_of_ne _ i j (by rw [hV]; simp)]
      constructor
      · rw [hfb]; exact upd2_self _ _ _ _
      · exact hV
  · intro hm
    have hm0 : st.vMask i j ≠ PismMask.oceanAtTime0 := by
      rcases hm with h | h <;> rw [h] <;> simp
    have hfl : ¬ ((st.vMask i j).is_floating = true) := by
      rcases hm with h | h <;> rw [h] <;> simp [PismMask.is_floating]
    refine ⟨_, updateCell_else cfg p st i j hH hdry hm0, ?_, ?_⟩
    · intro hc
      by_cases hsp : cfg.use_ssa_velocity = true ∧ cfg.do_plastic_till = true
      · have hfb : flotationBranch cfg p st i j =
            { st with
              vh := upd2 st.vh i j (hgrounded st i j),
              vMask := upd2 st.vMask i j PismMask.draggingSheet } := by
          unfold flotationBranch
          rw [if_neg hfl, if_pos hc, if_pos hsp]
        have hV : (flotationBranch cfg p st i j).vMask i j =
            PismMask.draggingSheet := by
          rw [hfb]; exact upd2_self _ _ _ _
        rw [voteResolve_of_ne _ i j (by rw [hV]; simp)]
        exact ⟨by rw [hfb]; exact upd2_self _ _ _ _,
          fun _ _ => hV, fun hcon => absurd hsp hcon⟩
      · have hfb : flotationBranch cfg p st i j =
            { st with vh := upd2 st.vh i j (hgrounded st i j) } := by
          unfold flotationBranch
          rw [if_neg hfl, if_pos hc, if_neg hsp]
        have hV : (flotationBranch cfg p st i j).vMask i j = st.vMask i j := by
          rw [hfb]
        have hVne : (flotationBranch cfg p st i j).vMask i j ≠
            PismMask.unknown := by
          rw [hV]; rcases hm with h | h <;> rw [h] <;> simp
        rw [voteResolve_of_ne _ i j hVne]
        refine ⟨by rw [hfb]; exact upd2_self _ _ _ _, ?_, fun _ => hV⟩
        intro hssa htill
        exact absurd ⟨hssa, htill⟩ hsp
    · intro hc
      have hfb : flotationBranch cfg p st i j =
          { st with
            vh := upd2 st.vh i j (hfloating p st i j),
            vMask := upd2 st.vMask i j PismMask.floating } := by
        unfold flotationBranch
        rw [if_neg hfl, if_neg hc]
      have hV : (flotationBranch cfg p st i j).vMask i j =
          PismMask.floating := by
        rw [hfb]; exact upd2_self _ _ _ _
      rw [voteResolve_of_ne _ i j (by rw [hV]; simp)]
      exact ⟨by rw [hfb]; exact upd2_self _ _ _ _, hV⟩

theorem claim3_witness :
    (¬ stFloatHighBed.vH 0 0 < 0) ∧
    (hgrounded stFloatHighBed 0 0 > hfloating pEx stFloatHighBed 0 0 + 1) ∧
    ∃ st', updateCell cfgOff pEx stFloatHighBed 0 0 = .ok st' ∧
      st'.vh 0 0 = hgrounded stFloatHighBed 0 0 ∧
      st'.vMask 0 0 = PismMask.sheet := by
  have hH : ¬ stFloatHighBed.vH 0 0 < 0 := by norm_num [stFloatHighBed]
  have hc : hgrounded stFloatHighBed 0 0 >
      hfloating pEx stFloatHighBed 0 0 + 1 := by
    norm_num [hgrounded, hfloating, stFloatHighBed, pEx]
  obtain ⟨st', hok, h1, _⟩ :=
    (claim3_reclassification cfgOff pEx stFloatHighBed 0 0 rfl hH).1 rfl
  obtain ⟨hvh, _, hsheet⟩ := h1 hc
  exact ⟨hH, hc, st', hok, hvh, hsheet rfl⟩

theorem PismModMask_int (m : PismMask) : ∃ k : ℤ, PismModMask m = (k : ℝ) := by
  cases m with
  | sheet => exact ⟨1, by simp [PismModMask, maskCode]⟩
  | draggingSheet => exact ⟨2, by simp [PismModMask, maskCode]⟩
  | floating => exact ⟨3, by simp [PismModMask, maskCode]⟩
  | oceanAtTime0 => exact ⟨3, by simp [PismModMask, maskCode]⟩
  | unknown => exact ⟨-1, by simp [PismModMask, maskCode]⟩

theorem neighmasksum_int (mask : ℤ → ℤ → PismMask) (i j : ℤ) :
    ∃ K : ℤ, neighmasksum mask i j = (K : ℝ) := by
  obtain ⟨k1, h1⟩ := PismModMask_int (mask (i-1) (j+1))
  obtain ⟨k2, h2⟩ := PismModMask_int (mask i (j+1))
  obtain ⟨k3, h3⟩ := PismModMask_int (mask (i+1) (j+1))
  obtain ⟨k4, h4⟩ := PismModMask_int (mask (i-1) j)
  obtain ⟨k5, h5⟩ := PismModMask_int (mask (i+1) j)
  obtain ⟨k6, h6⟩ := PismModMask_int (mask (i-1) (j-1))
  obtain ⟨k7, h7⟩ := PismModMask_int (mask i (j-1))
  obtain ⟨k8, h8⟩ := PismModMask_int (mask (i+1) (j-1))
  refine ⟨k1 + k2 + k3 + k4 + k5 + k6 + k7 + k8, ?_⟩
  rw [neighmasksum, h1, h2, h3, h4, h5, h6, h7, h8]
  push_cast
  ring

theorem vote_threshold_iff (mask : ℤ → ℤ → PismMask) (i j : ℤ) :
    (neighmasksum mask i j ≤
      7 * maskCode .sheet + maskCode .draggingSheet + 0.1) ↔
    (neighmasksum mask i j ≤ 7 * maskCode .sheet + maskCode .draggingSheet) := by
  obtain ⟨K, hK⟩ := neighmasksum_int mask i j
  rw [hK]
  simp only [maskCode]
  constructor
  · intro h
    have h1 : (K : ℝ) < 10 := by
      have : (7 * 1 + 2 + 0.1 : ℝ) < 10 := by norm_num
      linarith
    have h2 : K < 10 := by exact_mod_cast h1
    have h3 : K ≤ 9 := by omega
    have h4 : (K : ℝ) ≤ 9 := by exact_mod_cast h3
    linarith
  · intro h
    linarith

/-- Claim C4: masks set to UNKNOWN during updateSurfaceElevationAndMask (a
previously-floating cell that grounds while SSA velocity is active and
plastic till is not) are resolved before the call returns: the cell becomes
SHEET exactly when the neighbor vote-code sum is at most seven SHEET codes
plus one DRAGGING_SHEET code and DRAGGING_SHEET otherwise, the vote never
produces FLOATING, and after the call no cell mask is UNKNOWN. -/
theorem claim4_vote (cfg : Config) (p : Params) (st : GeomState) (i j : ℤ) :
    ((∀ a b, st.vMask a b ≠ PismMask.unknown) →
      ∀ cells st', runCells cfg p cells st = .ok st' →
      ∀ a b, st'.vMask a b ≠ PismMask.unknown)
    ∧ (st.vMask i j = PismMask.floating →
       hgrounded st i j > hfloating p st i j + 1 →
       cfg.use_ssa_velocity = true → cfg.do_plastic_till = false →
       cfg.is_dry_simulation = false → ¬ st.vH i j < 0 →
       ∃ st', updateCell cfg p st i j = .ok st' ∧
         (st'.vMask i j = PismMask.sheet ↔
           neighmasksum (upd2 st.vMask i j PismMask.unknown) i j ≤
             7 * maskCode .sheet + maskCode .draggingSheet) ∧
         (st'.vMask i j = PismMask.sheet ∨
           st'.vMask i j = PismMask.draggingSheet)) := by
  constructor
  · intro hnu cells st' hrun a b
    exact (runCells_ok_inv cfg p cells st st' hrun).2.2.2.2 a b (hnu a b)
  · intro hm hc hssa htill hdry hH
    have hm0 : st.vMask i j ≠ PismMask.oceanAtTime0 := by rw [hm]; simp
    have hfl : (st.vMask i j).is_floating = true := by rw [hm]; rfl
    refine ⟨_, updateCell_else cfg p st i j hH hdry hm0, ?_, ?_⟩
    all_goals {
      have hfb : flotationBranch cfg p st i j =
          { st with
            vh := upd2 st.vh i j (hgrounded st i j),
            vMask := upd2 st.vMask i j PismMask.unknown } := by
        unfold flotationBranch
        rw [if_pos hfl, if_pos hc, if_pos hssa, if_neg (by simp [htill])]
      have hunk : (flotationBranch cfg p st i j).vMask i j =
          PismMask.unknown := by
        rw [hfb]; exact upd2_self _ _ _ _
      have hres := voteResolve_of_unknown _ i j hunk
      have hmaskeq : (flotationBranch cfg p st i j).vMask =
          upd2 st.vMask i j PismMask.unknown := by rw [hfb]
      rw [hmaskeq] at hres
      by_cases hle : neighmasksum (upd2 st.vMask i j PismMask.unknown) i j ≤
          7 * maskCode .sheet + maskCode .draggingSheet + 0.1
      · rw [if_pos hle] at hres
        first
        | (rw [hres]
           exact ⟨fun _ => (vote_threshold_iff _ i j).mp hle, fun _ => rfl⟩)
        | exact Or.inl hres
      · rw [if_neg hle] at hres
        first
        | (rw [hres]
           constructor
           · intro hcon; exact absurd hcon (by simp)
           · intro hcon
             exact absurd (le_trans hcon (by norm_num [maskCode])) hle)
        | exact Or.inr hres
    }

theorem claim4_witness :
    stFloatHighBed.vMask 0 0 = PismMask.floating ∧
    (hgrounded stFloatHighBed 0 0 > hfloating pEx stFloatHighBed 0 0 + 1) ∧
    ∃ st', updateCell cfgSSA pEx stFloatHighBed 0 0 = .ok st' ∧
      (st'.vMask 0 0 = PismMask.sheet ↔
        neighmasksum (upd2 stFloatHighBed.vMask 0 0 PismMask.unknown) 0 0 ≤
          7 * maskCode .sheet + maskCode .draggingSheet) ∧
      (st'.vMask 0 0 = PismMask.sheet ∨
        st'.vMask 0 0 = PismMask.draggingSheet) := by
  have hc : hgrounded stFloatHighBed 0 0 >
      hfloating pEx stFloatHighBed 0 0 + 1 := by
    norm_num [hgrounded, hfloating, stFloatHighBed, pEx]
  exact ⟨rfl, hc,
    (claim4_vote cfgSSA pEx stFloatHighBed 0 0).2 rfl hc rfl rfl rfl
      (by norm_num [stFloatHighBed])⟩

/-- Claim C9 counterexample: in the dry-simulation configuration a
permanent-ocean cell keeps its mask but receives h = hgrounded = bed + H
rather than hfloating: with bed 5, H 0 and sea level 0 the call produces
h = 5 while hfloating = 0. -/
theorem claim9_counterexample :
    ∃ st', runCells cfgDry pEx [(0, 0)] stHighOcean = .ok st' ∧
      st'.vh 0 0 ≠ pEx.currentSeaLevel +
        (1 - pEx.ice_rho / pEx.ocean_rho) * stHighOcean.vH 0 0 := by
  have hH : ¬ stHighOcean.vH 0 0 < 0 := by norm_num [stHighOcean]
  refine ⟨{ stHighOcean with
    vh := upd2 stHighOcean.vh 0 0 (hgrounded stHighOcean 0 0) }, ?_, ?_⟩
  · rw [runCells_cons_ok cfgDry pEx (0, 0) [] stHighOcean _
      (updateCell_dry cfgDry pEx stHighOcean 0 0 hH rfl)]
    exact runCells_nil cfgDry pEx _
  · show upd2 stHighOcean.vh 0 0 (hgrounded stHighOcean 0 0) 0 0 ≠ _
    rw [upd2_self]
    norm_num [hgrounded, stHighOcean, pEx]

/-- Claim C9 (amended): a cell whose mask is OCEAN_AT_TIME_0 never has its
mask changed by any sequence of updateSurfaceElevationAndMask and
massContExplicitStep calls, in any configuration; and after each
updateSurfaceElevationAndMask call in a non-dry configuration its surface
elevation equals hfloating = sea_level + (1 - rho_ice/rho_ocean) H(i,j),
regardless of the bed elevation (the dry-simulation branch instead writes
h = hgrounded even at permanent-ocean cells). -/
theorem claim9_ocean_persistence :
    (∀ calls : List CoreCall, ∀ st st' : GeomState, ∀ i j : ℤ,
      st.vMask i j = PismMask.oceanAtTime0 →
      runCalls calls st = .ok st' →
      st'.vMask i j = PismMask.oceanAtTime0) ∧
    (∀ (cfg : Config) (p : Params) (cells : List (ℤ × ℤ))
      (st st' : GeomState) (i j : ℤ),
      cfg.is_dry_simulation = false →
      st.vMask i j = PismMask.oceanAtTime0 → (i, j) ∈ cells →
      runCells cfg p cells st = .ok st' →
      st'.vh i j = p.currentSeaLevel +
        (1 - p.ice_rho / p.ocean_rho) * st.vH i j) := by
  constructor
  · intro calls st st' i j hm hrun
    exact runCalls_ocean_mask calls st st' hrun i j hm
  · intro cfg p cells st st' i j hdry hm hmem hrun
    have h := runCells_ocean_h cfg p cells hdry st st' hrun i j hmem hm
    simpa [hfloating] using h

theorem claim9_witness :
    stHighOcean.vMask 0 0 = PismMask.oceanAtTime0 ∧
    (∃ st', runCalls [CoreCall.geom cfgOff pEx [(0, 0)]] stHighOcean =
        .ok st' ∧
      st'.vMask 0 0 = PismMask.oceanAtTime0 ∧
      st'.vh 0 0 = pEx.currentSeaLevel +
        (1 - pEx.ice_rho / pEx.ocean_rho) * stHighOcean.vH 0 0) := by
  have hH : ¬ stHighOcean.vH 0 0 < 0 := by norm_num [stHighOcean]
  have hupd := updateCell_ocean cfgOff pEx stHighOcean 0 0 hH rfl rfl
  have hrun : runCells cfgOff pEx [(0, 0)] stHighOcean =
      .ok { stHighOcean with
        vh := upd2 stHighOcean.vh 0 0 (hfloating pEx stHighOcean 0 0) } := by
    rw [runCells_cons_ok cfgOff pEx (0, 0) [] stHighOcean _ hupd]
    exact runCells_nil cfgOff pEx _
  have hcalls : runCalls [CoreCall.geom cfgOff pEx [(0, 0)]] stHighOcean =
      .ok { stHighOcean with
        vh := upd2 stHighOcean.vh 0 0 (hfloating pEx stHighOcean 0 0) } := by
    rw [runCalls_geom_ok cfgOff pEx [(0, 0)] [] stHighOcean _ hrun]
    exact runCalls_nil _
  refine ⟨rfl, _, hcalls, ?_, ?_⟩
  · exact claim9_ocean_persistence.1 [CoreCall.geom cfgOff pEx [(0, 0)]]
      stHighOcean _ 0 0 rfl hcalls
  · exact claim9_ocean_persistence.2 cfgOff pEx [(0, 0)] stHighOcean _ 0 0
      rfl rfl (by simp) hrun

end Pism
